import Mathlib

/-!
Verification of the marker-array client (`src/markers/MarkerArrayClient.js`).

The client keeps a registry of markers keyed by `ns + id` (JS string
concatenation), applies batches of update messages (action codes
0 = UPSERT, 1 = DEPRECATED, 2 = DELETE, 3 = DELETE_ALL), optionally tracks
per-key update times with a self-rescheduling 100 ms expiry check chain
(`checkTime`), and optionally drops whole batches behind a leading-edge
debounce window.

The embedding is state passing over an explicit `ClientState`.  JS objects
(`this.markers`, `this.updatedTime`) become association lists on `String`;
outstanding `setTimeout(checkTime, 100)` callbacks become the `pending`
multiset of (key, scheduled fire time) pairs; the `debounceTimer` handle
becomes the time at which the currently open debounce window closes.
Wall-clock reads (`new Date().getTime()`) inside one synchronous callback
are modelled as a single `now : Nat` parameter.  Side effects on
collaborators (rootObject add/remove, SceneNode tf unsubscribe, child
dispose, console.warn, `emit('change')`) are recorded as an `Event` list.
Object identity of a `ROS3D.SceneNode` is modelled by a `tag` drawn from a
counter `nextTag`, so "same object" is "same tag".
-/

namespace MarkerArray

/-- One element of `arrayMessage.markers`: the fields of a
`visualization_msgs/Marker` that `processMessage` reads
(`message.ns`, `message.id`, `message.action`, `message.header.frame_id`). -/
structure Msg where
  ns : String
  id : Int
  action : Int
  frame_id : String
  deriving Repr, DecidableEq

/-- The visual handle stored in `this.markers[key]`: a `ROS3D.SceneNode`
wrapping a `ROS3D.Marker` built from a message.  `tag` models JS object
identity (each `new` allocates a fresh tag); `msg` is the message the
wrapped marker currently displays. -/
structure SceneNode where
  tag : Nat
  frameId : String
  msg : Msg
  deriving Repr, DecidableEq

/-- Observable side effects of the client, in emission order. -/
inductive Event where
  /-- `this.emit('change')` -/
  | change
  /-- `console.warn` for a deprecated or unknown action code -/
  | warn (action : Int)
  /-- `oldNode.unsubscribeTf()` -/
  | unbindTf (tag : Nat)
  /-- `this.rootObject.remove(oldNode)` -/
  | detach (tag : Nat)
  /-- `child.dispose()` for the node's wrapped marker -/
  | dispose (tag : Nat)
  /-- `this.rootObject.add(newNode)` -/
  | attach (tag : Nat)
  deriving Repr, DecidableEq

/-- Construction-time configuration: `this.lifetime` and `this.debounceMs`
(both default 0 = disabled). -/
structure Config where
  lifetime : Nat
  debounceMs : Nat
  deriving Repr, DecidableEq

/-- The mutable state of a `ROS3D.MarkerArrayClient`. -/
structure ClientState where
  /-- `this.markers` : Map ns+id -> SceneNode -/
  markers : List (String × SceneNode)
  /-- `this.updatedTime` : Map ns+id -> last update wall-clock time -/
  updatedTime : List (String × Nat)
  /-- outstanding `setTimeout(() => checkTime(key), 100)` callbacks,
  as (key, scheduled fire time) -/
  pending : List (String × Nat)
  /-- allocation counter modelling JS object identity of scene nodes -/
  nextTag : Nat
  /-- `this.debounceTimer`: `some c` while a debounce window open until
  time `c` exists, `none` after the timeout callback cleared it -/
  debounceUntil : Option Nat
  deriving Repr, DecidableEq

/-- The state right after the constructor ran: empty maps, no timers. -/
def initialState : ClientState :=
  { markers := [], updatedTime := [], pending := [], nextTag := 0,
    debounceUntil := none }

/-! ### Association-list primitives (JS object get / set / delete) -/

/-- `obj[k]` – first entry with key `k`, if any. -/
def alGet (l : List (String × α)) (k : String) : Option α :=
  (l.find? (fun p => p.1 = k)).map (·.2)

/-- `obj[k] = v` – overwrite the entry if the key is present, else append. -/
def alSet (l : List (String × α)) (k : String) (v : α) : List (String × α) :=
  if l.any (fun p => p.1 = k) then
    l.map (fun p => if p.1 = k then (k, v) else p)
  else
    l ++ [(k, v)]

/-- `delete obj[k]` – drop every entry with key `k`. -/
def alRemove (l : List (String × α)) (k : String) : List (String × α) :=
  l.filter (fun p => ¬ p.1 = k)

/-! ### The client's operations, translated from the source -/

/-- `var key = message.ns + message.id` — JS coerces the number to its
decimal string and concatenates. -/
def markerKey (m : Msg) : String :=
  m.ns ++ toString m.id

/-- The condition of `checkTime`:
`curTime - this.updatedTime[name] > this.lifetime`.
When `updatedTime[name]` is `undefined` the JS subtraction yields `NaN`
and the comparison is `false`; with an entry `t` the comparison
`now - t > lifetime` agrees with truncated `Nat` subtraction because a
negative left side can only arise with `t > now`, where both readings
give `false` (`lifetime ≥ 0`). -/
def isStale (cfg : Config) (st : ClientState) (key : String) (now : Nat) : Bool :=
  match alGet st.updatedTime key with
  | some t => now - t > cfg.lifetime
  | none => false

/-- The first statement of `removeMarker`:
`if (this.lifetime && key in this.updatedTime) delete(this.updatedTime[key])`. -/
def removeMarkerUpd (cfg : Config) (st : ClientState) (key : String) :
    ClientState :=
  if cfg.lifetime ≠ 0 ∧ (alGet st.updatedTime key).isSome then
    { st with updatedTime := alRemove st.updatedTime key }
  else st

/-- `ROS3D.MarkerArrayClient.prototype.removeMarker`: drop the key's
`updatedTime` entry when a lifetime is configured, then — if a node is
registered under the key — unsubscribe its tf, detach it from the root
object, dispose its children and drop it from the registry. -/
def removeMarker (cfg : Config) (st : ClientState) (key : String) :
    ClientState × List Event :=
  let st1 := removeMarkerUpd cfg st key
  match alGet st1.markers key with
  | none => (st1, [])
  | some oldNode =>
      ({ st1 with markers := alRemove st1.markers key },
       [Event.unbindTf oldNode.tag, Event.detach oldNode.tag,
        Event.dispose oldNode.tag])

/-- `ROS3D.MarkerArrayClient.prototype.checkTime`: if stale, remove the
marker and emit `'change'`; otherwise re-arm a 100 ms timeout for the key. -/
def checkTime (cfg : Config) (st : ClientState) (key : String) (now : Nat) :
    ClientState × List Event :=
  if isStale cfg st key now then
    let r := removeMarker cfg st key
    (r.1, r.2 ++ [Event.change])
  else
    ({ st with pending := st.pending ++ [(key, now + 100)] }, [])

/-- A scheduled `checkTime` callback firing at its scheduled time `now`:
the event loop consumes the timer entry, then runs `checkTime`. -/
def fireCheck (cfg : Config) (st : ClientState) (key : String) (now : Nat) :
    ClientState × List Event :=
  checkTime cfg { st with pending := st.pending.erase (key, now) } key now

/-- The first statement of the `forEach` body in `processMessage`:
`if (this.lifetime) { this.updatedTime[key] = now; this.checkTime(key); }`. -/
def touchLifetime (cfg : Config) (st : ClientState) (key : String) (now : Nat) :
    ClientState × List Event :=
  if cfg.lifetime ≠ 0 then
    checkTime cfg { st with updatedTime := alSet st.updatedTime key now } key now
  else (st, [])

/-- The body of the `forEach` in `processMessage`, for one `message`.
`updateOk node m` models `this.markers[key].children[0].update(message)`
(the wrapped marker's in-place update), whose code lives outside this
file's source; it reports whether the update succeeded, and on success the
node keeps its identity with the new message applied. -/
def processOne (cfg : Config) (updateOk : SceneNode → Msg → Bool) (now : Nat)
    (st : ClientState) (m : Msg) : ClientState × List Event :=
  let key := markerKey m
  let t := touchLifetime cfg st key now
  let st := t.1
  let evs0 := t.2
  if m.action = 0 then
    match alGet st.markers key with
    | some node =>
        if updateOk node m then
          ({ st with markers := alSet st.markers key { node with msg := m } }, evs0)
        else
          let r := removeMarker cfg st key
          let newNode : SceneNode :=
            { tag := r.1.nextTag, frameId := m.frame_id, msg := m }
          ({ r.1 with markers := alSet r.1.markers key newNode,
                      nextTag := r.1.nextTag + 1 },
           evs0 ++ r.2 ++ [Event.attach newNode.tag])
    | none =>
        let newNode : SceneNode :=
          { tag := st.nextTag, frameId := m.frame_id, msg := m }
        ({ st with markers := alSet st.markers key newNode,
                   nextTag := st.nextTag + 1 },
         evs0 ++ [Event.attach newNode.tag])
  else if m.action = 1 then
    (st, evs0 ++ [Event.warn 1])
  else if m.action = 2 then
    let r := removeMarker cfg st key
    (r.1, evs0 ++ r.2)
  else if m.action = 3 then
    let r :=
      (st.markers.map (·.1)).foldl
        (fun acc k =>
          let s := removeMarker cfg acc.1 k
          (s.1, acc.2 ++ s.2))
        (st, ([] : List Event))
    ({ r.1 with markers := [] }, evs0 ++ r.2)
  else
    (st, evs0 ++ [Event.warn m.action])

/-- `ROS3D.MarkerArrayClient.prototype.processMessage`: apply every message
of the batch in array order, then emit a single `'change'`. -/
def processMessage (cfg : Config) (updateOk : SceneNode → Msg → Bool)
    (now : Nat) (st : ClientState) (msgs : List Msg) :
    ClientState × List Event :=
  let r :=
    msgs.foldl
      (fun acc m =>
        let s := processOne cfg updateOk now acc.1 m
        (s.1, acc.2 ++ s.2))
      (st, ([] : List Event))
  (r.1, r.2 ++ [Event.change])

/-- `this.debounceTimer` read as a boolean: the timeout callback clearing
`debounceTimer` runs at the window's close time, so at arrival time `now`
the timer is still set exactly when `now` is before the close time. -/
def timerOpen (st : ClientState) (now : Nat) : Bool :=
  match st.debounceUntil with
  | some c => now < c
  | none => false

/-- `ROS3D.MarkerArrayClient.prototype.debouncedProcessMessage`: drop the
batch while the debounce timer is set; otherwise process it and open a
window of `debounceMs`. -/
def debouncedProcessMessage (cfg : Config) (updateOk : SceneNode → Msg → Bool)
    (now : Nat) (st : ClientState) (msgs : List Msg) :
    ClientState × List Event :=
  if timerOpen st now then (st, [])
  else
    let r := processMessage cfg updateOk now st msgs
    ({ r.1 with debounceUntil := some (now + cfg.debounceMs) }, r.2)

/-- A sequence of batches delivered through the debounce gate, each with
its arrival time; returns the final state and the number of batches that
were forwarded to `processMessage` (the rest were dropped). -/
def debounceRun (cfg : Config) (updateOk : SceneNode → Msg → Bool)
    (batches : List (Nat × List Msg)) (st : ClientState) :
    ClientState × Nat :=
  batches.foldl
    (fun acc b =>
      ((debouncedProcessMessage cfg updateOk b.1 acc.1 b.2).1,
       acc.2 + (if timerOpen acc.1 b.1 then 0 else 1)))
    (st, 0)

/-- The net effect of the lifetime block of `processMessage` on the state:
refresh the key's `updatedTime` and schedule one more expiry check
(the just-refreshed key can never be stale at the same instant). -/
def touchState (cfg : Config) (st : ClientState) (key : String) (now : Nat) :
    ClientState :=
  if cfg.lifetime ≠ 0 then
    { st with updatedTime := alSet st.updatedTime key now,
              pending := st.pending ++ [(key, now + 100)] }
  else st

/-- The self-perpetuating `checkTime` chain for one key, firing at its
scheduled times `fire`, `fire + 100`, ... (each non-stale check re-arms a
100 ms timeout).  Returns the state, eviction time and accumulated events
of the firing at which the key is found stale, or `none` if the fuel runs
out first. -/
def chainRun (cfg : Config) (key : String) :
    Nat → ClientState → Nat → Option (ClientState × Nat × List Event)
  | 0, _, _ => none
  | fuel + 1, st, fire =>
      let r := fireCheck cfg st key fire
      if isStale cfg st key fire then some (r.1, fire, r.2)
      else (chainRun cfg key fuel r.1 (fire + 100)).map
        (fun q => (q.1, q.2.1, r.2 ++ q.2.2))

/-- The event loop firing a sequence of scheduled `checkTime` callbacks
for one key at the given times, accumulating the emitted events. -/
def fireChain (cfg : Config) (key : String) (times : List Nat)
    (st : ClientState) : ClientState × List Event :=
  times.foldl
    (fun a t => ((fireCheck cfg a.1 key t).1, a.2 ++ (fireCheck cfg a.1 key t).2))
    (st, [])

/-- The set of keys registered in an association list. -/
def keyFinset (l : List (String × α)) : Finset String :=
  (l.map (·.1)).toFinset

/-- The client's registry key set. -/
def keySet (st : ClientState) : Finset String :=
  keyFinset st.markers

/-- Modelled from the spec: the effect of one message on the key set —
"replaying UPSERT/DELETE/DELETE_ALL in order": UPSERT inserts the key,
DELETE erases it, DELETE_ALL empties the set, anything else leaves it
unchanged. -/
def specKeyStep (keys : Finset String) (m : Msg) : Finset String :=
  if m.action = 0 then insert (markerKey m) keys
  else if m.action = 2 then keys.erase (markerKey m)
  else if m.action = 3 then ∅
  else keys

/-- Modelled from the spec: replaying a whole batch against a prior key
set, in array order. -/
def specReplayKeys (keys : Finset String) (msgs : List Msg) : Finset String :=
  msgs.foldl specKeyStep keys

/-- Number of entries of an association list carrying a given key. -/
def countKey (l : List (String × α)) (k : String) : Nat :=
  (l.filter (fun p => p.1 = k)).length

/-- Number of outstanding scheduled expiry checks for a key. -/
def pendingCount (st : ClientState) (k : String) : Nat :=
  countKey st.pending k

/-- Every registered key has at least one outstanding expiry check. -/
def ChecksInv (st : ClientState) : Prop :=
  ∀ k, (alGet st.markers k).isSome → 1 ≤ pendingCount st k

/-! ### Concrete inputs used by witnesses and counterexamples -/

/-- A configuration with a 1000 ms lifetime and no debounce. -/
def exCfg : Config := { lifetime := 1000, debounceMs := 0 }

/-- A configuration with lifetime and debounce both disabled. -/
def exCfg0 : Config := { lifetime := 0, debounceMs := 0 }

/-- A configuration with a 50 ms debounce window. -/
def exCfgW : Config := { lifetime := 0, debounceMs := 50 }

/-- An in-place update oracle that always succeeds. -/
def alwaysUpdate : SceneNode → Msg → Bool := fun _ _ => true

/-- An in-place update oracle that always fails (incompatible payload). -/
def neverUpdate : SceneNode → Msg → Bool := fun _ _ => false

/-- An UPSERT message for namespace `"a"`, id `1`. -/
def exUpsert : Msg := { ns := "a", id := 1, action := 0, frame_id := "f" }

/-! ### Association-list lemmas -/

theorem alGet_nil (k : String) : alGet ([] : List (String × α)) k = none := rfl

theorem alGet_cons (p : String × α) (l : List (String × α)) (k : String) :
    alGet (p :: l) k = if p.1 = k then some p.2 else alGet l k := by
  by_cases h : p.1 = k <;> simp [alGet, List.find?, h]

theorem alGet_eq_none_of_not_any (l : List (String × α)) (k : String)
    (h : l.any (fun p => p.1 = k) = false) : alGet l k = none := by
  induction l with
  | nil => rfl
  | cons p t ih =>
      simp only [List.any_cons, Bool.or_eq_false_iff] at h
      rw [alGet_cons, if_neg (by simpa using h.1), ih h.2]

theorem alGet_map_overwrite (l : List (String × α)) (k : String) (v : α)
    (hc : l.any (fun p => p.1 = k) = true) :
    alGet (l.map (fun p => if p.1 = k then (k, v) else p)) k = some v := by
  induction l with
  | nil => simp at hc
  | cons p t ih =>
      by_cases hp : p.1 = k
      · simp [alGet_cons, hp]
      · simp only [List.any_cons, Bool.or_eq_true, decide_eq_true_eq, hp,
          false_or] at hc
        rw [List.map_cons, if_neg hp, alGet_cons, if_neg hp]
        exact ih hc

theorem alGet_map_overwrite_ne (l : List (String × α)) (k k' : String) (v : α)
    (h : k' ≠ k) :
    alGet (l.map (fun p => if p.1 = k then (k, v) else p)) k' = alGet l k' := by
  induction l with
  | nil => rfl
  | cons p t ih =>
      by_cases hp : p.1 = k
      · rw [List.map_cons, if_pos hp, alGet_cons, alGet_cons,
          if_neg (h.symm), if_neg (by rw [hp]; exact h.symm)]
        exact ih
      · rw [List.map_cons, if_neg hp, alGet_cons, alGet_cons]
        by_cases hk : p.1 = k'
        · simp [hk]
        · rw [if_neg hk, if_neg hk]
          exact ih

theorem alGet_append_single (l : List (String × α)) (k k' : String) (v : α) :
    alGet (l ++ [(k, v)]) k' =
      (alGet l k').orElse (fun _ => if k = k' then some v else none) := by
  induction l with
  | nil =>
      by_cases hk : k = k' <;> simp [alGet_cons, alGet_nil, hk]
  | cons p t ih =>
      rw [List.cons_append, alGet_cons, alGet_cons]
      by_cases hp : p.1 = k'
      · simp [hp]
      · rw [if_neg hp, if_neg hp, ih]

theorem alGet_alSet_self (l : List (String × α)) (k : String) (v : α) :
    alGet (alSet l k v) k = some v := by
  unfold alSet
  by_cases hc : l.any (fun p => p.1 = k)
  · rw [if_pos hc]
    exact alGet_map_overwrite l k v hc
  · rw [if_neg hc, alGet_append_single,
      alGet_eq_none_of_not_any l k (Bool.not_eq_true _ ▸ hc)]
    simp

theorem alGet_alSet_ne (l : List (String × α)) (k k' : String) (v : α)
    (h : k' ≠ k) : alGet (alSet l k v) k' = alGet l k' := by
  unfold alSet
  by_cases hc : l.any (fun p => p.1 = k)
  · rw [if_pos hc]
    exact alGet_map_overwrite_ne l k k' v h
  · rw [if_neg hc, alGet_append_single, if_neg (fun hh => h hh.symm)]
    cases alGet l k' <;> simp

theorem alGet_alRemove_self (l : List (String × α)) (k : String) :
    alGet (alRemove l k) k = none := by
  apply alGet_eq_none_of_not_any
  simp only [List.any_eq_false]
  intro p hp
  simp only [alRemove, List.mem_filter] at hp
  simpa using hp.2

theorem alGet_alRemove_ne (l : List (String × α)) (k k' : String)
    (h : k' ≠ k) : alGet (alRemove l k) k' = alGet l k' := by
  induction l with
  | nil => rfl
  | cons p t ih =>
      by_cases hp : p.1 = k
      · rw [alRemove, List.filter_cons, if_neg (by simp [hp])]
        rw [alRemove] at ih
        rw [ih, alGet_cons, if_neg (by rw [hp]; exact h.symm)]
      · rw [alRemove, List.filter_cons, if_pos (by simp [hp])]
        rw [alRemove] at ih
        rw [alGet_cons, alGet_cons]
        by_cases hk : p.1 = k'
        · simp [hk]
        · rw [if_neg hk, if_neg hk, ih]

theorem alGet_isSome_iff_mem (l : List (String × α)) (k : String) :
    (alGet l k).isSome ↔ k ∈ l.map (·.1) := by
  induction l with
  | nil => simp [alGet_nil]
  | cons p t ih =>
      rw [alGet_cons]
      by_cases hp : p.1 = k
      · simp [hp]
      · simp [hp, ih, Ne.symm hp]

theorem keys_map_overwrite (l : List (String × α)) (k : String) (v : α) :
    (l.map (fun p => if p.1 = k then (k, v) else p)).map (·.1) =
      l.map (·.1) := by
  rw [List.map_map]
  apply List.map_congr_left
  intro p _
  by_cases h : p.1 = k <;> simp [h]

theorem keys_alSet (l : List (String × α)) (k : String) (v : α) :
    (alSet l k v).map (·.1) =
      if l.any (fun p => p.1 = k) then l.map (·.1) else l.map (·.1) ++ [k] := by
  unfold alSet
  by_cases hc : l.any (fun p => p.1 = k)
  · rw [if_pos hc, if_pos hc, keys_map_overwrite]
  · rw [if_neg hc, if_neg hc, List.map_append]
    rfl

theorem any_key_iff_mem (l : List (String × α)) (k : String) :
    l.any (fun p => p.1 = k) = true ↔ k ∈ l.map (·.1) := by
  rw [List.any_eq_true]
  constructor
  · rintro ⟨p, hmem, hk⟩
    exact List.mem_map.mpr ⟨p, hmem, by simpa using hk⟩
  · intro hmem
    rcases List.mem_map.mp hmem with ⟨p, hmem, hk⟩
    exact ⟨p, hmem, by simpa using hk⟩

theorem mem_keys_alRemove (l : List (String × α)) (k k' : String) :
    k' ∈ (alRemove l k).map (·.1) ↔ k' ∈ l.map (·.1) ∧ k' ≠ k := by
  induction l with
  | nil => simp [alRemove]
  | cons p t ih =>
      rw [alRemove, List.filter_cons]
      by_cases hp : p.1 = k
      · rw [if_neg (by simp [hp])]
        rw [alRemove] at ih
        rw [ih]
        subst hp
        constructor
        · exact fun ⟨h1, h2⟩ => ⟨by simp [h1], h2⟩
        · rintro ⟨h1, h2⟩
          rw [List.map_cons, List.mem_cons] at h1
          rcases h1 with h1 | h1
          · exact absurd h1 h2
          · exact ⟨h1, h2⟩
      · rw [if_pos (by simp [hp]), List.map_cons, List.mem_cons]
        rw [alRemove] at ih
        rw [ih, List.map_cons, List.mem_cons]
        constructor
        · rintro (h1 | ⟨h1, h2⟩)
          · exact ⟨Or.inl h1, by rw [h1]; exact fun hh => hp hh⟩
          · exact ⟨Or.inr h1, h2⟩
        · rintro ⟨h1 | h1, h2⟩
          · exact Or.inl h1
          · exact Or.inr ⟨h1, h2⟩

/-! ### Reduction lemmas for the operations -/

/-- A key whose `updatedTime` entry was just written with the current time
is never stale: `now - now = 0` is not above the (non-negative) lifetime. -/
theorem isStale_fresh (cfg : Config) (st : ClientState) (key : String)
    (now : Nat) (h : alGet st.updatedTime key = some now) :
    isStale cfg st key now = false := by
  unfold isStale
  rw [h]
  simp

theorem checkTime_fresh (cfg : Config) (st : ClientState) (key : String)
    (now : Nat) (h : alGet st.updatedTime key = some now) :
    checkTime cfg st key now =
      ({ st with pending := st.pending ++ [(key, now + 100)] }, []) := by
  unfold checkTime
  rw [isStale_fresh cfg st key now h]
  simp

theorem touchLifetime_eq (cfg : Config) (st : ClientState) (key : String)
    (now : Nat) :
    touchLifetime cfg st key now = (touchState cfg st key now, []) := by
  unfold touchLifetime touchState
  by_cases h : cfg.lifetime ≠ 0
  · rw [if_pos h, if_pos h,
      checkTime_fresh cfg _ key now (alGet_alSet_self st.updatedTime key now)]
  · rw [if_neg h, if_neg h]

theorem touchState_markers (cfg : Config) (st : ClientState) (key : String)
    (now : Nat) : (touchState cfg st key now).markers = st.markers := by
  unfold touchState
  split <;> rfl

theorem touchState_nextTag (cfg : Config) (st : ClientState) (key : String)
    (now : Nat) : (touchState cfg st key now).nextTag = st.nextTag := by
  unfold touchState
  split <;> rfl

theorem removeMarkerUpd_markers (cfg : Config) (st : ClientState)
    (key : String) : (removeMarkerUpd cfg st key).markers = st.markers := by
  unfold removeMarkerUpd
  split <;> rfl

theorem removeMarkerUpd_pending (cfg : Config) (st : ClientState)
    (key : String) : (removeMarkerUpd cfg st key).pending = st.pending := by
  unfold removeMarkerUpd
  split <;> rfl

theorem removeMarkerUpd_nextTag (cfg : Config) (st : ClientState)
    (key : String) : (removeMarkerUpd cfg st key).nextTag = st.nextTag := by
  unfold removeMarkerUpd
  split <;> rfl

theorem removeMarker_markers (cfg : Config) (st : ClientState) (key : String) :
    (removeMarker cfg st key).1.markers =
      if (alGet st.markers key).isSome then alRemove st.markers key
      else st.markers := by
  simp only [removeMarker, removeMarkerUpd_markers]
  cases hm : alGet st.markers key <;> simp [hm, removeMarkerUpd_markers]

theorem removeMarker_pending (cfg : Config) (st : ClientState) (key : String) :
    (removeMarker cfg st key).1.pending = st.pending := by
  simp only [removeMarker, removeMarkerUpd_markers]
  cases hm : alGet st.markers key <;> simp [hm, removeMarkerUpd_pending]

theorem removeMarker_nextTag (cfg : Config) (st : ClientState) (key : String) :
    (removeMarker cfg st key).1.nextTag = st.nextTag := by
  simp only [removeMarker, removeMarkerUpd_markers]
  cases hm : alGet st.markers key <;> simp [hm, removeMarkerUpd_nextTag]

theorem removeMarker_events (cfg : Config) (st : ClientState) (key : String) :
    (removeMarker cfg st key).2 =
      match alGet st.markers key with
      | none => []
      | some oldNode =>
          [Event.unbindTf oldNode.tag, Event.detach oldNode.tag,
           Event.dispose oldNode.tag] := by
  simp only [removeMarker, removeMarkerUpd_markers]
  cases hm : alGet st.markers key <;> simp [hm]

theorem change_not_mem_removeMarker (cfg : Config) (st : ClientState)
    (key : String) : Event.change ∉ (removeMarker cfg st key).2 := by
  rw [removeMarker_events]
  cases alGet st.markers key <;> simp

/-! ### The spec's key-replay model (for the refinement claim C1) -/

theorem keyFinset_alRemove (l : List (String × α)) (k : String) :
    keyFinset (alRemove l k) = (keyFinset l).erase k := by
  unfold keyFinset
  ext a
  simp only [List.mem_toFinset, mem_keys_alRemove, Finset.mem_erase]
  exact and_comm

theorem alGet_eq_none_iff_not_mem (l : List (String × α)) (k : String) :
    alGet l k = none ↔ k ∉ l.map (·.1) := by
  rw [← alGet_isSome_iff_mem]
  cases alGet l k <;> simp

theorem keyFinset_alSet (l : List (String × α)) (k : String) (v : α) :
    keyFinset (alSet l k v) = insert k (keyFinset l) := by
  unfold keyFinset
  rw [keys_alSet]
  by_cases hc : l.any (fun p => p.1 = k)
  · rw [if_pos hc]
    have hmem : k ∈ (l.map (·.1)).toFinset :=
      List.mem_toFinset.mpr ((any_key_iff_mem l k).mp hc)
    rw [Finset.insert_eq_self.mpr hmem]
  · rw [if_neg hc]
    ext a
    simp only [List.mem_toFinset, List.mem_append, List.mem_singleton,
      Finset.mem_insert]
    exact or_comm

/-! ### Per-message key-set behaviour -/

theorem keySet_processOne (cfg : Config) (f : SceneNode → Msg → Bool)
    (now : Nat) (st : ClientState) (m : Msg) :
    keySet (processOne cfg f now st m).1 = specKeyStep (keySet st) m := by
  have hts : keySet (touchState cfg st (markerKey m) now) = keySet st := by
    unfold keySet
    rw [touchState_markers]
  simp only [processOne, touchLifetime_eq, specKeyStep]
  by_cases h0 : m.action = 0
  · rw [if_pos h0, if_pos h0, removeMarker_markers, touchState_markers]
    cases hm : alGet st.markers (markerKey m) with
    | none =>
        simp [keySet, keyFinset_alSet]
    | some node =>
        have hmem : markerKey m ∈ keyFinset st.markers :=
          List.mem_toFinset.mpr
            ((alGet_isSome_iff_mem _ _).mp (by rw [hm]; rfl))
        by_cases hu : f node m
        · simp [hu, keySet, keyFinset_alSet]
        · simp only [hu, Bool.false_eq_true, if_false, Option.isSome_some,
            if_true, keySet, keyFinset_alSet, keyFinset_alRemove]
          rw [Finset.insert_erase hmem, Finset.insert_eq_self.mpr hmem]
  · rw [if_neg h0, if_neg h0]
    by_cases h1 : m.action = 1
    · simp [h1, hts]
    · rw [if_neg h1]
      by_cases h2 : m.action = 2
      · rw [if_pos h2, if_pos h2]
        unfold keySet
        rw [removeMarker_markers, touchState_markers]
        cases hm : alGet st.markers (markerKey m) with
        | none =>
            simp only [Option.isSome_none, Bool.false_eq_true, if_false]
            rw [Finset.erase_eq_of_not_mem]
            simp only [keyFinset, List.mem_toFinset]
            exact (alGet_eq_none_iff_not_mem _ _).mp hm
        | some node =>
            simp only [Option.isSome_some, if_true, keyFinset_alRemove]
      · rw [if_neg h2, if_neg h2]
        by_cases h3 : m.action = 3
        · simp [h3, keySet, keyFinset]
        · simp [h3, hts]

/-- The state component of the batch fold is the fold of the per-message
state transitions (the event accumulator does not feed back into it). -/
theorem foldl_pair_fst (g : ClientState → Msg → ClientState × List Event)
    (msgs : List Msg) (st : ClientState) (acc : List Event) :
    (msgs.foldl (fun a m => ((g a.1 m).1, a.2 ++ (g a.1 m).2)) (st, acc)).1 =
      msgs.foldl (fun s m => (g s m).1) st := by
  induction msgs generalizing st acc with
  | nil => rfl
  | cons m t ih =>
      simp only [List.foldl_cons]
      exact ih _ _

theorem processMessage_fst (cfg : Config) (f : SceneNode → Msg → Bool)
    (now : Nat) (st : ClientState) (msgs : List Msg) :
    (processMessage cfg f now st msgs).1 =
      msgs.foldl (fun s m => (processOne cfg f now s m).1) st := by
  simp only [processMessage]
  exact foldl_pair_fst (processOne cfg f now) msgs st []

/-! ### Per-action equations for processOne -/

theorem processOne_deprecated (cfg : Config) (f : SceneNode → Msg → Bool)
    (now : Nat) (st : ClientState) (m : Msg) (h1 : m.action = 1) :
    processOne cfg f now st m =
      (touchState cfg st (markerKey m) now, [Event.warn 1]) := by
  simp only [processOne, touchLifetime_eq]
  rw [if_neg (by rw [h1]; decide), if_pos h1]
  simp

theorem processOne_unknown (cfg : Config) (f : SceneNode → Msg → Bool)
    (now : Nat) (st : ClientState) (m : Msg) (h0 : m.action ≠ 0)
    (h1 : m.action ≠ 1) (h2 : m.action ≠ 2) (h3 : m.action ≠ 3) :
    processOne cfg f now st m =
      (touchState cfg st (markerKey m) now, [Event.warn m.action]) := by
  simp only [processOne, touchLifetime_eq]
  rw [if_neg h0, if_neg h1, if_neg h2, if_neg h3]
  simp

theorem processOne_delete (cfg : Config) (f : SceneNode → Msg → Bool)
    (now : Nat) (st : ClientState) (m : Msg) (h2 : m.action = 2) :
    processOne cfg f now st m =
      removeMarker cfg (touchState cfg st (markerKey m) now) (markerKey m) := by
  simp only [processOne, touchLifetime_eq]
  rw [if_neg (by rw [h2]; decide), if_neg (by rw [h2]; decide), if_pos h2]
  simp

theorem processOne_upsert_inPlace (cfg : Config) (f : SceneNode → Msg → Bool)
    (now : Nat) (st : ClientState) (m : Msg) (node : SceneNode)
    (h0 : m.action = 0) (hm : alGet st.markers (markerKey m) = some node)
    (hu : f node m = true) :
    processOne cfg f now st m =
      ({ touchState cfg st (markerKey m) now with
          markers := alSet st.markers (markerKey m) { node with msg := m } },
       []) := by
  simp only [processOne, touchLifetime_eq]
  rw [if_pos h0, touchState_markers, hm]
  simp [hu]

theorem processOne_upsert_new (cfg : Config) (f : SceneNode → Msg → Bool)
    (now : Nat) (st : ClientState) (m : Msg)
    (h0 : m.action = 0) (hm : alGet st.markers (markerKey m) = none) :
    processOne cfg f now st m =
      ({ touchState cfg st (markerKey m) now with
          markers := alSet st.markers (markerKey m)
            { tag := st.nextTag, frameId := m.frame_id, msg := m },
          nextTag := st.nextTag + 1 },
       [Event.attach st.nextTag]) := by
  simp only [processOne, touchLifetime_eq]
  rw [if_pos h0, touchState_markers, hm]
  simp [touchState_nextTag]

theorem processOne_upsert_recreate (cfg : Config) (f : SceneNode → Msg → Bool)
    (now : Nat) (st : ClientState) (m : Msg) (node : SceneNode)
    (h0 : m.action = 0) (hm : alGet st.markers (markerKey m) = some node)
    (hu : f node m = false) :
    processOne cfg f now st m =
      ({ (removeMarker cfg (touchState cfg st (markerKey m) now)
            (markerKey m)).1 with
          markers := alSet
            (removeMarker cfg (touchState cfg st (markerKey m) now)
              (markerKey m)).1.markers (markerKey m)
            { tag := st.nextTag, frameId := m.frame_id, msg := m },
          nextTag := st.nextTag + 1 },
       (removeMarker cfg (touchState cfg st (markerKey m) now)
         (markerKey m)).2 ++ [Event.attach st.nextTag]) := by
  simp only [processOne, touchLifetime_eq]
  rw [if_pos h0, touchState_markers, hm]
  simp [hu, removeMarker_nextTag, touchState_nextTag]

theorem processOne_deleteAll (cfg : Config) (f : SceneNode → Msg → Bool)
    (now : Nat) (st : ClientState) (m : Msg) (h3 : m.action = 3) :
    processOne cfg f now st m =
      ({ ((st.markers.map (·.1)).foldl
            (fun a k =>
              ((removeMarker cfg a.1 k).1, a.2 ++ (removeMarker cfg a.1 k).2))
            (touchState cfg st (markerKey m) now, ([] : List Event))).1 with
          markers := [] },
       ((st.markers.map (·.1)).foldl
         (fun a k =>
           ((removeMarker cfg a.1 k).1, a.2 ++ (removeMarker cfg a.1 k).2))
         (touchState cfg st (markerKey m) now, ([] : List Event))).2) := by
  simp only [processOne, touchLifetime_eq]
  rw [if_neg (by rw [h3]; decide), if_neg (by rw [h3]; decide),
    if_neg (by rw [h3]; decide), if_pos h3, touchState_markers]
  simp

/-! ### State-component lemmas for processOne -/

theorem touchState_pending_of_lifetime (cfg : Config) (st : ClientState)
    (key : String) (now : Nat) (hL : cfg.lifetime ≠ 0) :
    (touchState cfg st key now).pending = st.pending ++ [(key, now + 100)] := by
  unfold touchState
  rw [if_pos hL]

theorem touchState_updatedTime_of_lifetime (cfg : Config) (st : ClientState)
    (key : String) (now : Nat) (hL : cfg.lifetime ≠ 0) :
    (touchState cfg st key now).updatedTime = alSet st.updatedTime key now := by
  unfold touchState
  rw [if_pos hL]

theorem touchState_of_lifetime_zero (cfg : Config) (st : ClientState)
    (key : String) (now : Nat) (hL : cfg.lifetime = 0) :
    touchState cfg st key now = st := by
  unfold touchState
  rw [if_neg (by simp [hL])]

theorem removeMarker_updatedTime (cfg : Config) (st : ClientState)
    (key : String) :
    (removeMarker cfg st key).1.updatedTime =
      (removeMarkerUpd cfg st key).updatedTime := by
  simp only [removeMarker, removeMarkerUpd_markers]
  cases hm : alGet st.markers key <;> simp

theorem removeMarkerUpd_updatedTime (cfg : Config) (st : ClientState)
    (key : String) :
    (removeMarkerUpd cfg st key).updatedTime =
      if cfg.lifetime ≠ 0 ∧ (alGet st.updatedTime key).isSome then
        alRemove st.updatedTime key
      else st.updatedTime := by
  unfold removeMarkerUpd
  split <;> rfl

theorem removeFold_fst_pending (cfg : Config) (ks : List String) :
    ∀ (s : ClientState) (acc : List Event),
      ((ks.foldl
          (fun a k => ((removeMarker cfg a.1 k).1, a.2 ++ (removeMarker cfg a.1 k).2))
          (s, acc)).1).pending = s.pending := by
  induction ks with
  | nil => intro s acc; rfl
  | cons k t ih =>
      intro s acc
      simp only [List.foldl_cons]
      rw [ih]
      exact removeMarker_pending cfg s k

theorem removeFold_fst_nextTag (cfg : Config) (ks : List String) :
    ∀ (s : ClientState) (acc : List Event),
      ((ks.foldl
          (fun a k => ((removeMarker cfg a.1 k).1, a.2 ++ (removeMarker cfg a.1 k).2))
          (s, acc)).1).nextTag = s.nextTag := by
  induction ks with
  | nil => intro s acc; rfl
  | cons k t ih =>
      intro s acc
      simp only [List.foldl_cons]
      rw [ih]
      exact removeMarker_nextTag cfg s k

theorem change_not_mem_removeFold (cfg : Config) (ks : List String) :
    ∀ (s : ClientState) (acc : List Event), Event.change ∉ acc →
      Event.change ∉
        (ks.foldl
          (fun a k => ((removeMarker cfg a.1 k).1, a.2 ++ (removeMarker cfg a.1 k).2))
          (s, acc)).2 := by
  induction ks with
  | nil => intro s acc h; exact h
  | cons k t ih =>
      intro s acc h
      simp only [List.foldl_cons]
      apply ih
      intro hmem
      rcases List.mem_append.mp hmem with h1 | h1
      · exact h h1
      · exact change_not_mem_removeMarker cfg s k h1

theorem processOne_pending (cfg : Config) (f : SceneNode → Msg → Bool)
    (now : Nat) (st : ClientState) (m : Msg) (hL : cfg.lifetime ≠ 0) :
    (processOne cfg f now st m).1.pending =
      st.pending ++ [(markerKey m, now + 100)] := by
  by_cases h0 : m.action = 0
  · cases hm : alGet st.markers (markerKey m) with
    | none =>
        rw [processOne_upsert_new cfg f now st m h0 hm]
        exact touchState_pending_of_lifetime cfg st (markerKey m) now hL
    | some node =>
        by_cases hu : f node m
        · rw [processOne_upsert_inPlace cfg f now st m node h0 hm hu]
          exact touchState_pending_of_lifetime cfg st (markerKey m) now hL
        · rw [processOne_upsert_recreate cfg f now st m node h0 hm
            (by simpa using hu)]
          show (removeMarker cfg (touchState cfg st (markerKey m) now)
            (markerKey m)).1.pending = _
          rw [removeMarker_pending]
          exact touchState_pending_of_lifetime cfg st (markerKey m) now hL
  · by_cases h1 : m.action = 1
    · rw [processOne_deprecated cfg f now st m h1]
      exact touchState_pending_of_lifetime cfg st (markerKey m) now hL
    · by_cases h2 : m.action = 2
      · rw [processOne_delete cfg f now st m h2]
        rw [removeMarker_pending]
        exact touchState_pending_of_lifetime cfg st (markerKey m) now hL
      · by_cases h3 : m.action = 3
        · rw [processOne_deleteAll cfg f now st m h3]
          simp only [removeFold_fst_pending]
          exact touchState_pending_of_lifetime cfg st (markerKey m) now hL
        · rw [processOne_unknown cfg f now st m h0 h1 h2 h3]
          exact touchState_pending_of_lifetime cfg st (markerKey m) now hL

/-! ### Pending-check counting and the expiry-check invariant -/

theorem countKey_cons (p : String × α) (l : List (String × α)) (k : String) :
    countKey (p :: l) k = (if p.1 = k then 1 else 0) + countKey l k := by
  by_cases h : p.1 = k <;>
    simp [countKey, List.filter_cons, h, Nat.add_comm]

theorem countKey_append (l1 l2 : List (String × α)) (k : String) :
    countKey (l1 ++ l2) k = countKey l1 k + countKey l2 k := by
  simp [countKey, List.filter_append]

theorem countKey_single (k' k : String) (t : α) :
    countKey [(k', t)] k = if k' = k then 1 else 0 := by
  by_cases h : k' = k <;> simp [countKey, List.filter_cons, h]

theorem countKey_erase_ne (l : List (String × Nat)) (key k : String) (t : Nat)
    (h : k ≠ key) : countKey (l.erase (key, t)) k = countKey l k := by
  induction l with
  | nil => rfl
  | cons p rest ih =>
      rw [List.erase_cons]
      by_cases hp : p = (key, t)
      · rw [if_pos (by simp [hp]), hp, countKey_cons]
        simp [Ne.symm h]
      · rw [if_neg (by simp [hp]), countKey_cons, countKey_cons, ih]

theorem mem_of_mem_specKeyStep_ne (keys : Finset String) (m : Msg) (k : String)
    (hne : k ≠ markerKey m) (h : k ∈ specKeyStep keys m) : k ∈ keys := by
  unfold specKeyStep at h
  split_ifs at h with h0 h2 h3
  · rcases Finset.mem_insert.mp h with h' | h'
    · exact absurd h' hne
    · exact h'
  · exact (Finset.mem_erase.mp h).2
  · exact absurd h (Finset.not_mem_empty k)
  · exact h

theorem alGet_markers_isSome_iff (st : ClientState) (k : String) :
    (alGet st.markers k).isSome ↔ k ∈ keySet st := by
  rw [alGet_isSome_iff_mem]
  exact (List.mem_toFinset).symm

theorem ChecksInv_processOne (cfg : Config) (f : SceneNode → Msg → Bool)
    (now : Nat) (st : ClientState) (m : Msg) (hL : cfg.lifetime ≠ 0)
    (h : ChecksInv st) : ChecksInv (processOne cfg f now st m).1 := by
  intro k hk
  unfold pendingCount
  rw [processOne_pending cfg f now st m hL, countKey_append, countKey_single]
  by_cases hkey : markerKey m = k
  · rw [if_pos hkey]
    omega
  · rw [if_neg hkey]
    have hkm : (alGet st.markers k).isSome := by
      rw [alGet_markers_isSome_iff] at hk ⊢
      rw [keySet_processOne] at hk
      exact mem_of_mem_specKeyStep_ne _ _ _ (fun hh => hkey hh.symm) hk
    have h1 := h k hkm
    unfold pendingCount at h1
    omega

theorem ChecksInv_fireCheck (cfg : Config) (st : ClientState) (key : String)
    (t : Nat) (h : ChecksInv st) : ChecksInv (fireCheck cfg st key t).1 := by
  unfold fireCheck checkTime
  by_cases hs : isStale cfg { st with pending := st.pending.erase (key, t) } key t
  · rw [if_pos hs]
    intro k hk
    have hmk : (alGet
        (removeMarker cfg { st with pending := st.pending.erase (key, t) } key).1.markers
        k).isSome := hk
    rw [removeMarker_markers] at hmk
    have hpend : pendingCount
        (removeMarker cfg { st with pending := st.pending.erase (key, t) } key).1 k =
        countKey (st.pending.erase (key, t)) k := by
      unfold pendingCount
      rw [removeMarker_pending]
    show 1 ≤ pendingCount
      (removeMarker cfg { st with pending := st.pending.erase (key, t) } key).1 k
    rw [hpend]
    cases hm : alGet st.markers key with
    | some node =>
        rw [hm] at hmk
        simp only [Option.isSome_some, if_true] at hmk
        have hne : k ≠ key := by
          intro hh
          subst hh
          rw [alGet_alRemove_self] at hmk
          simp at hmk
        rw [alGet_alRemove_ne _ _ _ hne] at hmk
        rw [countKey_erase_ne _ _ _ _ hne]
        exact h k hmk
    | none =>
        rw [hm] at hmk
        simp only [Option.isSome_none, Bool.false_eq_true, if_false] at hmk
        have hne : k ≠ key := by
          intro hh
          subst hh
          rw [hm] at hmk
          simp at hmk
        rw [countKey_erase_ne _ _ _ _ hne]
        exact h k hmk
  · rw [if_neg hs]
    intro k hk
    have hmk : (alGet st.markers k).isSome := hk
    show 1 ≤ countKey (st.pending.erase (key, t) ++ [(key, t + 100)]) k
    rw [countKey_append, countKey_single]
    by_cases hkey : key = k
    · rw [if_pos hkey]
      omega
    · rw [if_neg hkey]
      rw [countKey_erase_ne _ _ _ _ (fun hh => hkey hh.symm)]
      have h1 := h k hmk
      unfold pendingCount at h1
      omega

/-! ### Batch events and claims C1, C6 -/

theorem change_not_mem_processOne (cfg : Config) (f : SceneNode → Msg → Bool)
    (now : Nat) (st : ClientState) (m : Msg) :
    Event.change ∉ (processOne cfg f now st m).2 := by
  by_cases h0 : m.action = 0
  · cases hm : alGet st.markers (markerKey m) with
    | none =>
        rw [processOne_upsert_new cfg f now st m h0 hm]
        simp
    | some node =>
        by_cases hu : f node m
        · rw [processOne_upsert_inPlace cfg f now st m node h0 hm hu]
          simp
        · rw [processOne_upsert_recreate cfg f now st m node h0 hm
            (by simpa using hu)]
          intro hmem
          rcases List.mem_append.mp hmem with h1 | h1
          · exact change_not_mem_removeMarker _ _ _ h1
          · simp at h1
  · by_cases h1 : m.action = 1
    · rw [processOne_deprecated cfg f now st m h1]
      simp
    · by_cases h2 : m.action = 2
      · rw [processOne_delete cfg f now st m h2]
        exact change_not_mem_removeMarker _ _ _
      · by_cases h3 : m.action = 3
        · rw [processOne_deleteAll cfg f now st m h3]
          exact change_not_mem_removeFold _ _ _ _ (by simp)
        · rw [processOne_unknown cfg f now st m h0 h1 h2 h3]
          simp

theorem change_not_mem_processFold (cfg : Config) (f : SceneNode → Msg → Bool)
    (now : Nat) (msgs : List Msg) :
    ∀ (st : ClientState) (acc : List Event), Event.change ∉ acc →
      Event.change ∉
        (msgs.foldl
          (fun a m => ((processOne cfg f now a.1 m).1, a.2 ++ (processOne cfg f now a.1 m).2))
          (st, acc)).2 := by
  induction msgs with
  | nil => intro st acc h; exact h
  | cons m t ih =>
      intro st acc h
      simp only [List.foldl_cons]
      apply ih
      intro hmem
      rcases List.mem_append.mp hmem with h1 | h1
      · exact h h1
      · exact change_not_mem_processOne cfg f now st m h1

/-- C6: For every processed batch — whatever its length (zero included) and
whatever actions its messages carry — exactly one `'change'` signal is
emitted, and it comes after the whole batch has been applied (it is the
last event of the batch). -/
theorem processMessage_emits_one_change (cfg : Config)
    (f : SceneNode → Msg → Bool) (now : Nat) (st : ClientState)
    (msgs : List Msg) :
    ((processMessage cfg f now st msgs).2).count Event.change = 1 ∧
    ((processMessage cfg f now st msgs).2).getLast? = some Event.change := by
  simp only [processMessage]
  constructor
  · rw [List.count_append]
    rw [List.count_eq_zero.mpr
      (change_not_mem_processFold cfg f now msgs st [] (by simp))]
    simp
  · exact List.getLast?_concat _

/-- C1: For every processed batch, the set of keys present in the registry
afterwards equals the result of replaying the batch's
UPSERT/DELETE/DELETE_ALL messages, in array order, against the registry's
prior key set (in particular, from an empty registry for the first batch). -/
theorem processMessage_keySet_replay (cfg : Config)
    (f : SceneNode → Msg → Bool) (now : Nat) (st : ClientState)
    (msgs : List Msg) :
    keySet (processMessage cfg f now st msgs).1 =
      specReplayKeys (keySet st) msgs := by
  rw [processMessage_fst]
  unfold specReplayKeys
  induction msgs generalizing st with
  | nil => rfl
  | cons m t ih =>
      simp only [List.foldl_cons]
      rw [ih, keySet_processOne]

/-! ### Claims C2, C3, C9 -/

theorem ChecksInv_processMessage (cfg : Config) (f : SceneNode → Msg → Bool)
    (now : Nat) (msgs : List Msg) :
    ∀ st : ClientState, cfg.lifetime ≠ 0 → ChecksInv st →
      ChecksInv (processMessage cfg f now st msgs).1 := by
  intro st hL h
  rw [processMessage_fst]
  revert h
  induction msgs generalizing st with
  | nil => intro h; exact h
  | cons m rest ih =>
      intro h
      simp only [List.foldl_cons]
      exact ih _ (ChecksInv_processOne cfg f now st m hL h)

/-- C2 (amended): when lifetime > 0, every entity present in the registry
has AT LEAST one outstanding scheduled expiry check, and this is preserved
by batch processing and by a firing expiry check (hence by eviction and by
deletion, which happen inside those operations); more than one check can be
outstanding for the same entity. -/
theorem registered_keys_have_pending_check (cfg : Config)
    (f : SceneNode → Msg → Bool) (now : Nat) (st : ClientState)
    (msgs : List Msg) (k : String) (t : Nat)
    (hL : cfg.lifetime ≠ 0) (h : ChecksInv st) :
    ChecksInv (processMessage cfg f now st msgs).1 ∧
    ChecksInv (fireCheck cfg st k t).1 :=
  ⟨ChecksInv_processMessage cfg f now msgs st hL h,
   ChecksInv_fireCheck cfg st k t h⟩

/-- Witness for the amended C2 theorem at a concrete input. -/
theorem registered_keys_have_pending_check_witness :
    exCfg.lifetime ≠ 0 ∧ ChecksInv initialState ∧
    (ChecksInv (processMessage exCfg alwaysUpdate 0 initialState [exUpsert]).1 ∧
     ChecksInv (fireCheck exCfg initialState "a1" 100).1) := by
  have hInv : ChecksInv initialState := by
    intro k h
    rw [show alGet initialState.markers k = none from rfl] at h
    simp at h
  exact ⟨by decide, hInv,
    registered_keys_have_pending_check exCfg alwaysUpdate 0 initialState
      [exUpsert] "a1" 100 (by decide) hInv⟩

/-- Counterexample to C2 as stated: one batch carrying the same UPSERT
twice leaves the key registered with TWO outstanding expiry checks. -/
theorem duplicate_pending_checks_cex :
    (alGet (processMessage exCfg alwaysUpdate 0 initialState
        [exUpsert, exUpsert]).1.markers "a1").isSome ∧
    pendingCount (processMessage exCfg alwaysUpdate 0 initialState
        [exUpsert, exUpsert]).1 "a1" = 2 := by
  decide

/-- C3 (amended): a DEPRECATED (action=1) or unknown-action message never
changes the registry contents and only emits a diagnostic; when lifetime
is 0 the whole client state is unchanged, but when lifetime > 0 the
message still refreshes the key's `updatedTime` entry and schedules an
extra expiry check. -/
theorem deprecated_unknown_leave_registry (cfg : Config)
    (f : SceneNode → Msg → Bool) (now : Nat) (st : ClientState) (m : Msg)
    (h : m.action = 1 ∨
      (m.action ≠ 0 ∧ m.action ≠ 1 ∧ m.action ≠ 2 ∧ m.action ≠ 3)) :
    (processOne cfg f now st m).1.markers = st.markers ∧
    (∃ a, (processOne cfg f now st m).2 = [Event.warn a]) ∧
    (cfg.lifetime = 0 → (processOne cfg f now st m).1 = st) := by
  rcases h with h1 | ⟨h0, h1, h2, h3⟩
  · rw [processOne_deprecated cfg f now st m h1]
    exact ⟨touchState_markers cfg st (markerKey m) now, ⟨1, rfl⟩,
      fun hz => touchState_of_lifetime_zero cfg st (markerKey m) now hz⟩
  · rw [processOne_unknown cfg f now st m h0 h1 h2 h3]
    exact ⟨touchState_markers cfg st (markerKey m) now, ⟨m.action, rfl⟩,
      fun hz => touchState_of_lifetime_zero cfg st (markerKey m) now hz⟩

/-- Witness for the amended C3 theorem at a concrete input. -/
theorem deprecated_unknown_leave_registry_witness :
    ((99 : Int) = 1 ∨
      ((99 : Int) ≠ 0 ∧ (99 : Int) ≠ 1 ∧ (99 : Int) ≠ 2 ∧ (99 : Int) ≠ 3)) ∧
    ((processOne exCfg0 alwaysUpdate 0 initialState
        { ns := "a", id := 1, action := 99, frame_id := "f" }).1.markers =
        initialState.markers ∧
     (∃ a, (processOne exCfg0 alwaysUpdate 0 initialState
        { ns := "a", id := 1, action := 99, frame_id := "f" }).2 =
          [Event.warn a]) ∧
     (exCfg0.lifetime = 0 → (processOne exCfg0 alwaysUpdate 0 initialState
        { ns := "a", id := 1, action := 99, frame_id := "f" }).1 =
          initialState)) :=
  ⟨by decide,
   deprecated_unknown_leave_registry exCfg0 alwaysUpdate 0 initialState
     { ns := "a", id := 1, action := 99, frame_id := "f" } (by decide)⟩

/-- Counterexample to C3 as stated: with lifetime > 0, a DEPRECATED
message mutates the client state — it writes the key's `updatedTime`
entry and schedules an expiry check. -/
theorem deprecated_mutates_state_cex :
    (processOne exCfg alwaysUpdate 0 initialState
        { ns := "a", id := 1, action := 1, frame_id := "f" }).1 ≠
      initialState ∧
    (processOne exCfg alwaysUpdate 0 initialState
        { ns := "a", id := 1, action := 1, frame_id := "f" }).1.updatedTime =
      [("a1", 0)] ∧
    (processOne exCfg alwaysUpdate 0 initialState
        { ns := "a", id := 1, action := 1, frame_id := "f" }).1.pending =
      [("a1", 100)] := by
  decide

/-- C9 (amended): the registry key is the string `ns + id`; messages whose
concatenated keys differ are stored independently — processing a message
with any action other than DELETE_ALL never affects the entity registered
under a different key. -/
theorem distinct_keys_no_interference (cfg : Config)
    (f : SceneNode → Msg → Bool) (now : Nat) (st : ClientState) (m : Msg)
    (k : String) (h3 : m.action ≠ 3) (hk : k ≠ markerKey m) :
    alGet (processOne cfg f now st m).1.markers k = alGet st.markers k := by
  by_cases h0 : m.action = 0
  · cases hm : alGet st.markers (markerKey m) with
    | none =>
        rw [processOne_upsert_new cfg f now st m h0 hm]
        show alGet (alSet st.markers (markerKey m) _) k = _
        exact alGet_alSet_ne _ _ _ _ hk
    | some node =>
        by_cases hu : f node m
        · rw [processOne_upsert_inPlace cfg f now st m node h0 hm hu]
          show alGet (alSet st.markers (markerKey m) _) k = _
          exact alGet_alSet_ne _ _ _ _ hk
        · rw [processOne_upsert_recreate cfg f now st m node h0 hm
            (by simpa using hu)]
          show alGet (alSet (removeMarker cfg (touchState cfg st (markerKey m) now)
            (markerKey m)).1.markers (markerKey m) _) k = _
          rw [alGet_alSet_ne _ _ _ _ hk, removeMarker_markers,
            touchState_markers, hm]
          simp only [Option.isSome_some, if_true]
          exact alGet_alRemove_ne _ _ _ hk
  · by_cases h1 : m.action = 1
    · rw [processOne_deprecated cfg f now st m h1]
      show alGet (touchState cfg st (markerKey m) now).markers k = _
      rw [touchState_markers]
    · by_cases h2 : m.action = 2
      · rw [processOne_delete cfg f now st m h2]
        rw [removeMarker_markers, touchState_markers]
        cases hm : alGet st.markers (markerKey m) with
        | none => simp
        | some node =>
            simp only [Option.isSome_some, if_true]
            exact alGet_alRemove_ne _ _ _ hk
      · rw [processOne_unknown cfg f now st m h0 h1 h2 h3]
        show alGet (touchState cfg st (markerKey m) now).markers k = _
        rw [touchState_markers]

/-- Witness for the amended C9 theorem at a concrete input. -/
theorem distinct_keys_no_interference_witness :
    exUpsert.action ≠ 3 ∧ "b2" ≠ markerKey exUpsert ∧
    alGet (processOne exCfg0 alwaysUpdate 0 initialState exUpsert).1.markers
        "b2" =
      alGet initialState.markers "b2" :=
  ⟨by decide, by decide,
   distinct_keys_no_interference exCfg0 alwaysUpdate 0 initialState exUpsert
     "b2" (by decide) (by decide)⟩

/-- Counterexample to C9 as stated: the pairs `("a1", 2)` and `("a", 12)`
are distinct but concatenate to the same key `"a12"`, so a DELETE for one
pair removes the other pair's entity. -/
theorem key_collision_cex :
    markerKey { ns := "a1", id := 2, action := 0, frame_id := "f" } =
      markerKey { ns := "a", id := 12, action := 2, frame_id := "f" } ∧
    ("a1", (2 : Int)) ≠ ("a", (12 : Int)) ∧
    (processMessage exCfg0 alwaysUpdate 0 initialState
        [{ ns := "a1", id := 2, action := 0, frame_id := "f" },
         { ns := "a", id := 12, action := 2, frame_id := "f" }]).1.markers =
      [] := by
  decide

/-! ### Claims C8 and C10 -/

theorem countKey_eq_zero_of_alGet_none (l : List (String × α)) (k : String)
    (h : alGet l k = none) : countKey l k = 0 := by
  have hmem := (alGet_eq_none_iff_not_mem l k).mp h
  unfold countKey
  rw [List.length_eq_zero, List.filter_eq_nil_iff]
  intro p hp
  simp only [decide_eq_true_eq]
  intro hh
  exact hmem (List.mem_map.mpr ⟨p, hp, hh⟩)

theorem countKey_alSet_absent (l : List (String × α)) (k : String) (v : α)
    (h : alGet l k = none) : countKey (alSet l k v) k = 1 := by
  unfold alSet
  rw [if_neg fun hc =>
    (alGet_eq_none_iff_not_mem l k).mp h ((any_key_iff_mem l k).mp hc)]
  rw [countKey_append, countKey_eq_zero_of_alGet_none l k h, countKey_single,
    if_pos rfl]

theorem countKey_map_overwrite (l : List (String × α)) (k : String) (v : α) :
    countKey (l.map (fun p => if p.1 = k then (k, v) else p)) k =
      countKey l k := by
  induction l with
  | nil => rfl
  | cons p t ih =>
      by_cases hp : p.1 = k <;>
        simp [countKey_cons, hp, ih]

theorem countKey_alSet_present (l : List (String × α)) (k : String) (v : α)
    (hc : l.any (fun p => p.1 = k) = true) :
    countKey (alSet l k v) k = countKey l k := by
  unfold alSet
  rw [if_pos hc]
  exact countKey_map_overwrite l k v

theorem alGet_of_mem_nodup (l : List (String × α)) (p : String × α)
    (hnd : (l.map (·.1)).Nodup) (hp : p ∈ l) : alGet l p.1 = some p.2 := by
  induction l with
  | nil => simp at hp
  | cons q t ih =>
      rw [List.map_cons, List.nodup_cons] at hnd
      rcases List.mem_cons.mp hp with h | h
      · subst h
        rw [alGet_cons, if_pos rfl]
      · have hne : q.1 ≠ p.1 := by
          intro hh
          exact hnd.1 (hh ▸ List.mem_map.mpr ⟨p, h, rfl⟩)
        rw [alGet_cons, if_neg hne]
        exact ih hnd.2 h

theorem removeFold_snd_mono (cfg : Config) (ks : List String) :
    ∀ (s : ClientState) (acc : List Event) (e : Event), e ∈ acc →
      e ∈ (ks.foldl
        (fun a k => ((removeMarker cfg a.1 k).1, a.2 ++ (removeMarker cfg a.1 k).2))
        (s, acc)).2 := by
  induction ks with
  | nil => intro s acc e h; exact h
  | cons k t ih =>
      intro s acc e h
      simp only [List.foldl_cons]
      exact ih _ _ _ (List.mem_append_left _ h)

theorem removeFold_events_of_mem (cfg : Config) (ks : List String) :
    ∀ (s : ClientState) (acc : List Event) (k : String) (node : SceneNode),
      ks.Nodup → k ∈ ks → alGet s.markers k = some node →
      Event.unbindTf node.tag ∈ (ks.foldl
        (fun a k => ((removeMarker cfg a.1 k).1, a.2 ++ (removeMarker cfg a.1 k).2))
        (s, acc)).2 ∧
      Event.detach node.tag ∈ (ks.foldl
        (fun a k => ((removeMarker cfg a.1 k).1, a.2 ++ (removeMarker cfg a.1 k).2))
        (s, acc)).2 ∧
      Event.dispose node.tag ∈ (ks.foldl
        (fun a k => ((removeMarker cfg a.1 k).1, a.2 ++ (removeMarker cfg a.1 k).2))
        (s, acc)).2 := by
  induction ks with
  | nil =>
      intro s acc k node _ hk
      simp at hk
  | cons k0 rest ih =>
      intro s acc k node hnd hk hm
      simp only [List.foldl_cons]
      rw [List.nodup_cons] at hnd
      rcases List.mem_cons.mp hk with he | hrest
      · subst he
        have hev : (removeMarker cfg s k).2 =
            [Event.unbindTf node.tag, Event.detach node.tag,
             Event.dispose node.tag] := by
          rw [removeMarker_events, hm]
        refine ⟨?_, ?_, ?_⟩ <;>
          exact removeFold_snd_mono cfg rest _ _ _
            (List.mem_append_right _ (by rw [hev]; simp))
      · have hne : k ≠ k0 := fun hh => hnd.1 (hh ▸ hrest)
        have hm' : alGet (removeMarker cfg s k0).1.markers k = some node := by
          rw [removeMarker_markers]
          cases hq : alGet s.markers k0 with
          | none => simpa using hm
          | some q =>
              simp only [Option.isSome_some, if_true]
              rw [alGet_alRemove_ne _ _ _ hne]
              exact hm
        exact ih _ _ _ _ hnd.2 hrest hm'

/-- C8: a DELETE_ALL message (action=3) removes every entity currently in
the registry — detaching and disposing each one's visual handle — and
leaves the registry empty, regardless of the message's own namespace and
id. -/
theorem deleteAll_empties_registry (cfg : Config)
    (f : SceneNode → Msg → Bool) (now : Nat) (st : ClientState) (m : Msg)
    (h3 : m.action = 3) (hnd : (st.markers.map (·.1)).Nodup) :
    (processOne cfg f now st m).1.markers = [] ∧
    ∀ p ∈ st.markers,
      Event.detach p.2.tag ∈ (processOne cfg f now st m).2 ∧
      Event.dispose p.2.tag ∈ (processOne cfg f now st m).2 := by
  rw [processOne_deleteAll cfg f now st m h3]
  refine ⟨rfl, ?_⟩
  intro p hp
  have hg : alGet (touchState cfg st (markerKey m) now).markers p.1 =
      some p.2 := by
    rw [touchState_markers]
    exact alGet_of_mem_nodup st.markers p hnd hp
  have hk : p.1 ∈ st.markers.map (·.1) := List.mem_map.mpr ⟨p, hp, rfl⟩
  have h := removeFold_events_of_mem cfg (st.markers.map (·.1))
    (touchState cfg st (markerKey m) now) [] p.1 p.2 hnd hk hg
  exact ⟨h.2.1, h.2.2⟩

/-- Witness for the C8 theorem at a concrete input. -/
theorem deleteAll_empties_registry_witness :
    ((3 : Int) = 3) ∧
    (((processMessage exCfg0 alwaysUpdate 0 initialState
        [exUpsert, { ns := "b", id := 2, action := 0, frame_id := "f" }]).1.markers.map
        (·.1)).Nodup) ∧
    ((processOne exCfg0 alwaysUpdate 0
        (processMessage exCfg0 alwaysUpdate 0 initialState
          [exUpsert, { ns := "b", id := 2, action := 0, frame_id := "f" }]).1
        { ns := "", id := 0, action := 3, frame_id := "" }).1.markers = [] ∧
     ∀ p ∈ (processMessage exCfg0 alwaysUpdate 0 initialState
        [exUpsert, { ns := "b", id := 2, action := 0, frame_id := "f" }]).1.markers,
       Event.detach p.2.tag ∈ (processOne exCfg0 alwaysUpdate 0
          (processMessage exCfg0 alwaysUpdate 0 initialState
            [exUpsert, { ns := "b", id := 2, action := 0, frame_id := "f" }]).1
          { ns := "", id := 0, action := 3, frame_id := "" }).2 ∧
       Event.dispose p.2.tag ∈ (processOne exCfg0 alwaysUpdate 0
          (processMessage exCfg0 alwaysUpdate 0 initialState
            [exUpsert, { ns := "b", id := 2, action := 0, frame_id := "f" }]).1
          { ns := "", id := 0, action := 3, frame_id := "" }).2) :=
  ⟨by decide, by decide,
   deleteAll_empties_registry exCfg0 alwaysUpdate 0
     (processMessage exCfg0 alwaysUpdate 0 initialState
       [exUpsert, { ns := "b", id := 2, action := 0, frame_id := "f" }]).1
     { ns := "", id := 0, action := 3, frame_id := "" } (by decide) (by decide)⟩

/-- C10: an UPSERT for an existing key whose in-place update fails
(destroy-then-recreate) with lifetime > 0 leaves the recreated entity in
the registry but deletes its `updatedTime` entry without restoring it;
any later expiry check for that key then finds no entry, evicts nothing,
emits nothing and merely re-arms itself — the recreated entity is never
evicted until a further UPSERT arrives. -/
theorem recreate_loses_updatedTime (cfg : Config)
    (f : SceneNode → Msg → Bool) (now : Nat) (st : ClientState) (m : Msg)
    (node : SceneNode) (h0 : m.action = 0) (hL : cfg.lifetime ≠ 0)
    (hm : alGet st.markers (markerKey m) = some node)
    (hu : f node m = false) :
    (alGet (processOne cfg f now st m).1.markers (markerKey m)).isSome ∧
    alGet (processOne cfg f now st m).1.updatedTime (markerKey m) = none ∧
    (∀ (s : ClientState) (t : Nat), alGet s.updatedTime (markerKey m) = none →
      (fireCheck cfg s (markerKey m) t).1.markers = s.markers ∧
      (fireCheck cfg s (markerKey m) t).1.updatedTime = s.updatedTime ∧
      (fireCheck cfg s (markerKey m) t).2 = []) := by
  refine ⟨?_, ?_, ?_⟩
  · rw [processOne_upsert_recreate cfg f now st m node h0 hm hu]
    show (alGet (alSet _ (markerKey m) _) (markerKey m)).isSome
    rw [alGet_alSet_self]
    rfl
  · rw [processOne_upsert_recreate cfg f now st m node h0 hm hu]
    show alGet (removeMarker cfg (touchState cfg st (markerKey m) now)
      (markerKey m)).1.updatedTime (markerKey m) = none
    rw [removeMarker_updatedTime, removeMarkerUpd_updatedTime,
      touchState_updatedTime_of_lifetime cfg st (markerKey m) now hL,
      if_pos ⟨hL, by rw [alGet_alSet_self]; rfl⟩]
    exact alGet_alRemove_self _ _
  · intro s t hnone
    unfold fireCheck checkTime
    have hstale : isStale cfg
        { s with pending := s.pending.erase (markerKey m, t) }
        (markerKey m) t = false := by
      unfold isStale
      rw [show ({ s with pending := s.pending.erase (markerKey m, t) } :
        ClientState).updatedTime = s.updatedTime from rfl, hnone]
    rw [hstale]
    simp

/-- Witness for the C10 theorem at a concrete input. -/
theorem recreate_loses_updatedTime_witness :
    exUpsert.action = 0 ∧ exCfg.lifetime ≠ 0 ∧
    alGet (processMessage exCfg neverUpdate 0 initialState
        [exUpsert]).1.markers (markerKey exUpsert) =
      some { tag := 0, frameId := "f", msg := exUpsert } ∧
    neverUpdate { tag := 0, frameId := "f", msg := exUpsert } exUpsert = false ∧
    ((alGet (processOne exCfg neverUpdate 5
        (processMessage exCfg neverUpdate 0 initialState [exUpsert]).1
        exUpsert).1.markers (markerKey exUpsert)).isSome ∧
     alGet (processOne exCfg neverUpdate 5
        (processMessage exCfg neverUpdate 0 initialState [exUpsert]).1
        exUpsert).1.updatedTime (markerKey exUpsert) = none ∧
     (∀ (s : ClientState) (t : Nat),
        alGet s.updatedTime (markerKey exUpsert) = none →
        (fireCheck exCfg s (markerKey exUpsert) t).1.markers = s.markers ∧
        (fireCheck exCfg s (markerKey exUpsert) t).1.updatedTime =
          s.updatedTime ∧
        (fireCheck exCfg s (markerKey exUpsert) t).2 = [])) :=
  ⟨by decide, by decide, by decide, by decide,
   recreate_loses_updatedTime exCfg neverUpdate 5
     (processMessage exCfg neverUpdate 0 initialState [exUpsert]).1
     exUpsert { tag := 0, frameId := "f", msg := exUpsert }
     (by decide) (by decide) (by decide) (by decide)⟩

/-! ### Claim C7 -/

/-- C7: applying the same UPSERT twice with identical payload (and an
in-place update that accepts the identical payload) yields exactly one
entity for the key, whose visual handle is the very node allocated by the
first application (same `tag`, updated in place), with `updatedTime`
refreshed to the second application's time and no detach/dispose/attach
events on the second application. -/
theorem upsert_idempotent (cfg : Config) (f : SceneNode → Msg → Bool)
    (now1 now2 : Nat) (st : ClientState) (m : Msg)
    (h0 : m.action = 0) (hL : cfg.lifetime ≠ 0)
    (hm : alGet st.markers (markerKey m) = none)
    (hf : ∀ node : SceneNode, node.msg = m → f node m = true) :
    alGet (processOne cfg f now1 st m).1.markers (markerKey m) =
      some { tag := st.nextTag, frameId := m.frame_id, msg := m } ∧
    alGet (processOne cfg f now2 (processOne cfg f now1 st m).1 m).1.markers
        (markerKey m) =
      some { tag := st.nextTag, frameId := m.frame_id, msg := m } ∧
    countKey (processOne cfg f now2 (processOne cfg f now1 st m).1 m).1.markers
        (markerKey m) = 1 ∧
    alGet (processOne cfg f now2 (processOne cfg f now1 st m).1 m).1.updatedTime
        (markerKey m) = some now2 ∧
    (processOne cfg f now2 (processOne cfg f now1 st m).1 m).2 = [] := by
  have e1 := processOne_upsert_new cfg f now1 st m h0 hm
  have hget1 : alGet (processOne cfg f now1 st m).1.markers (markerKey m) =
      some { tag := st.nextTag, frameId := m.frame_id, msg := m } := by
    rw [e1]
    show alGet (alSet st.markers (markerKey m) _) (markerKey m) = _
    exact alGet_alSet_self _ _ _
  have e2 := processOne_upsert_inPlace cfg f now2 (processOne cfg f now1 st m).1
    m { tag := st.nextTag, frameId := m.frame_id, msg := m } h0 hget1
    (hf _ rfl)
  refine ⟨hget1, ?_, ?_, ?_, ?_⟩
  · rw [e2]
    show alGet (alSet (processOne cfg f now1 st m).1.markers (markerKey m) _)
      (markerKey m) = _
    rw [alGet_alSet_self]
  · rw [e2]
    show countKey (alSet (processOne cfg f now1 st m).1.markers (markerKey m) _)
      (markerKey m) = 1
    rw [countKey_alSet_present]
    · rw [e1]
      show countKey (alSet st.markers (markerKey m) _) (markerKey m) = 1
      exact countKey_alSet_absent _ _ _ hm
    · rw [any_key_iff_mem, ← alGet_isSome_iff_mem, hget1]
      rfl
  · rw [e2]
    show alGet (touchState cfg (processOne cfg f now1 st m).1 (markerKey m)
      now2).updatedTime (markerKey m) = some now2
    rw [touchState_updatedTime_of_lifetime _ _ _ _ hL]
    exact alGet_alSet_self _ _ _
  · rw [e2]

/-- Witness for the C7 theorem at a concrete input. -/
theorem upsert_idempotent_witness :
    exUpsert.action = 0 ∧ exCfg.lifetime ≠ 0 ∧
    alGet initialState.markers (markerKey exUpsert) = none ∧
    (∀ node : SceneNode, node.msg = exUpsert →
      alwaysUpdate node exUpsert = true) ∧
    (alGet (processOne exCfg alwaysUpdate 0 initialState exUpsert).1.markers
        (markerKey exUpsert) =
      some { tag := initialState.nextTag, frameId := exUpsert.frame_id,
             msg := exUpsert } ∧
     alGet (processOne exCfg alwaysUpdate 7
        (processOne exCfg alwaysUpdate 0 initialState exUpsert).1
        exUpsert).1.markers (markerKey exUpsert) =
      some { tag := initialState.nextTag, frameId := exUpsert.frame_id,
             msg := exUpsert } ∧
     countKey (processOne exCfg alwaysUpdate 7
        (processOne exCfg alwaysUpdate 0 initialState exUpsert).1
        exUpsert).1.markers (markerKey exUpsert) = 1 ∧
     alGet (processOne exCfg alwaysUpdate 7
        (processOne exCfg alwaysUpdate 0 initialState exUpsert).1
        exUpsert).1.updatedTime (markerKey exUpsert) = some 7 ∧
     (processOne exCfg alwaysUpdate 7
        (processOne exCfg alwaysUpdate 0 initialState exUpsert).1
        exUpsert).2 = []) :=
  ⟨by decide, by decide, by decide, fun _ _ => rfl,
   upsert_idempotent exCfg alwaysUpdate 0 7 initialState exUpsert
     (by decide) (by decide) (by decide) (fun _ _ => rfl)⟩

/-! ### Claim C4: the expiry chain -/

theorem fireCheck_not_stale (cfg : Config) (st : ClientState) (key : String)
    (t : Nat) (h : isStale cfg st key t = false) :
    fireCheck cfg st key t =
      ({ st with pending := st.pending.erase (key, t) ++ [(key, t + 100)] },
       []) := by
  unfold fireCheck checkTime
  rw [show isStale cfg { st with pending := st.pending.erase (key, t) } key t =
    isStale cfg st key t from rfl, h]
  simp

theorem fireCheck_stale (cfg : Config) (st : ClientState) (key : String)
    (t : Nat) (h : isStale cfg st key t = true) :
    fireCheck cfg st key t =
      ((removeMarker cfg { st with pending := st.pending.erase (key, t) } key).1,
       (removeMarker cfg { st with pending := st.pending.erase (key, t) } key).2
         ++ [Event.change]) := by
  unfold fireCheck checkTime
  rw [show isStale cfg { st with pending := st.pending.erase (key, t) } key t =
    isStale cfg st key t from rfl, h]
  simp

theorem chainRun_succ (cfg : Config) (key : String) (fuel : Nat)
    (st : ClientState) (fire : Nat) :
    chainRun cfg key (fuel + 1) st fire =
      if isStale cfg st key fire then
        some ((fireCheck cfg st key fire).1, fire, (fireCheck cfg st key fire).2)
      else
        (chainRun cfg key fuel (fireCheck cfg st key fire).1 (fire + 100)).map
          (fun q => (q.1, q.2.1, (fireCheck cfg st key fire).2 ++ q.2.2)) := by
  rfl

theorem chainRun_evicts (cfg : Config) (key : String) (t0 : Nat) :
    ∀ (fuel : Nat) (st : ClientState) (fire : Nat),
      alGet st.updatedTime key = some t0 →
      (alGet st.markers key).isSome →
      t0 < fire → fire ≤ t0 + cfg.lifetime + 100 →
      t0 + cfg.lifetime + 100 < fire + 100 * fuel →
      ∃ st' T evs, chainRun cfg key fuel st fire = some (st', T, evs) ∧
        T ≤ t0 + cfg.lifetime + 100 ∧
        alGet st'.markers key = none ∧
        evs.count Event.change = 1 := by
  intro fuel
  induction fuel with
  | zero =>
      intro st fire h1 h2 h3 h4 h5
      omega
  | succ fuel ih =>
      intro st fire h1 h2 h3 h4 h5
      rw [chainRun_succ]
      have hstale_def : isStale cfg st key fire =
          decide (fire - t0 > cfg.lifetime) := by
        unfold isStale
        rw [h1]
      by_cases hs : fire - t0 > cfg.lifetime
      · rw [hstale_def, decide_eq_true hs]
        simp only [if_true]
        refine ⟨_, fire, _, rfl, h4, ?_, ?_⟩
        · rw [fireCheck_stale cfg st key fire
            (by rw [hstale_def]; exact decide_eq_true hs)]
          rw [removeMarker_markers]
          cases hm : alGet st.markers key with
          | none => rw [hm] at h2; simp at h2
          | some q =>
              simp [alGet_alRemove_self]
        · rw [fireCheck_stale cfg st key fire
            (by rw [hstale_def]; exact decide_eq_true hs)]
          rw [List.count_append,
            List.count_eq_zero.mpr (change_not_mem_removeMarker _ _ _)]
          simp
      · rw [hstale_def, decide_eq_false hs]
        simp only [Bool.false_eq_true, if_false]
        have hfc := fireCheck_not_stale cfg st key fire
          (by rw [hstale_def]; exact decide_eq_false hs)
        have h1' : alGet (fireCheck cfg st key fire).1.updatedTime key =
            some t0 := by rw [hfc]; exact h1
        have h2' : (alGet (fireCheck cfg st key fire).1.markers key).isSome := by
          rw [hfc]; exact h2
        obtain ⟨st', T, evs, he, hT, hmk, hcnt⟩ :=
          ih (fireCheck cfg st key fire).1 (fire + 100) h1' h2'
            (by omega) (by omega) (by omega)
        refine ⟨st', T, (fireCheck cfg st key fire).2 ++ evs, ?_, hT, hmk, ?_⟩
        · rw [he]
          rfl
        · rw [hfc]
          simpa using hcnt

/-- C4 (amended): with lifetime L > 0, a key whose `updatedTime` entry
survived its last UPSERT at time `t0` (an in-place update or a fresh
creation — not the destroy-and-recreate path, which deletes the entry) and
that receives no further updates is evicted by its scheduled `checkTime`
chain at a time at most `t0 + L + 100` (L plus the fixed 100 ms poll
interval), with exactly one `'change'` signal emitted by the chain. -/
theorem eviction_within_lifetime_plus_poll (cfg : Config) (st : ClientState)
    (key : String) (t0 : Nat) (hL : 0 < cfg.lifetime)
    (h1 : alGet st.updatedTime key = some t0)
    (h2 : (alGet st.markers key).isSome) :
    ∃ st' T evs,
      chainRun cfg key (cfg.lifetime / 100 + 1) st (t0 + 100) =
        some (st', T, evs) ∧
      T ≤ t0 + cfg.lifetime + 100 ∧
      alGet st'.markers key = none ∧
      evs.count Event.change = 1 := by
  apply chainRun_evicts cfg key t0 _ st (t0 + 100) h1 h2 (by omega) (by omega)
  have hdm := Nat.div_add_mod cfg.lifetime 100
  have hmod := Nat.mod_lt cfg.lifetime (show 0 < 100 by decide)
  omega

/-- Witness for the amended C4 theorem at a concrete input. -/
theorem eviction_within_lifetime_plus_poll_witness :
    0 < exCfg.lifetime ∧
    alGet (processMessage exCfg alwaysUpdate 0 initialState
        [exUpsert]).1.updatedTime "a1" = some 0 ∧
    (alGet (processMessage exCfg alwaysUpdate 0 initialState
        [exUpsert]).1.markers "a1").isSome ∧
    (∃ st' T evs,
      chainRun exCfg "a1" (exCfg.lifetime / 100 + 1)
        (processMessage exCfg alwaysUpdate 0 initialState [exUpsert]).1
        (0 + 100) = some (st', T, evs) ∧
      T ≤ 0 + exCfg.lifetime + 100 ∧
      alGet st'.markers "a1" = none ∧
      evs.count Event.change = 1) :=
  ⟨by decide, by decide, by decide,
   eviction_within_lifetime_plus_poll exCfg
     (processMessage exCfg alwaysUpdate 0 initialState [exUpsert]).1
     "a1" 0 (by decide) (by decide) (by decide)⟩

/-- Counterexample to C4 as stated: after an UPSERT whose in-place update
failed (destroy-and-recreate) at time 0 with lifetime 1000, the expiry
checks firing every 100 ms up to time 1200 — past `L + P = 1100` — never
evict the recreated entity and emit no `'change'` signal at all. -/
theorem recreated_entity_never_evicted_cex :
    (alGet (fireChain exCfg "a1"
        [100, 200, 300, 400, 500, 600, 700, 800, 900, 1000, 1100, 1200]
        (processOne exCfg neverUpdate 0
          (processMessage exCfg neverUpdate 0 initialState [exUpsert]).1
          exUpsert).1).1.markers "a1").isSome ∧
    ((fireChain exCfg "a1"
        [100, 200, 300, 400, 500, 600, 700, 800, 900, 1000, 1100, 1200]
        (processOne exCfg neverUpdate 0
          (processMessage exCfg neverUpdate 0 initialState [exUpsert]).1
          exUpsert).1).2).count Event.change = 0 := by
  decide

/-! ### Claim C5: the debounce gate -/

theorem debounced_drop (cfg : Config) (f : SceneNode → Msg → Bool)
    (st : ClientState) (now : Nat) (msgs : List Msg)
    (h : timerOpen st now = true) :
    debouncedProcessMessage cfg f now st msgs = (st, []) := by
  simp [debouncedProcessMessage, h]

theorem debounced_accept (cfg : Config) (f : SceneNode → Msg → Bool)
    (st : ClientState) (now : Nat) (msgs : List Msg)
    (h : timerOpen st now = false) :
    debouncedProcessMessage cfg f now st msgs =
      ({ (processMessage cfg f now st msgs).1 with
          debounceUntil := some (now + cfg.debounceMs) },
       (processMessage cfg f now st msgs).2) := by
  simp [debouncedProcessMessage, h]

theorem debounceFold_dropped (cfg : Config) (f : SceneNode → Msg → Bool) :
    ∀ (rest : List (Nat × List Msg)) (s : ClientState) (n : Nat) (c : Nat),
      s.debounceUntil = some c → (∀ b ∈ rest, (b : Nat × List Msg).1 < c) →
      rest.foldl
        (fun acc b =>
          ((debouncedProcessMessage cfg f b.1 acc.1 b.2).1,
           acc.2 + (if timerOpen acc.1 b.1 then 0 else 1)))
        (s, n) = (s, n) := by
  intro rest
  induction rest with
  | nil => intro s n c _ _; rfl
  | cons b t ih =>
      intro s n c hc hall
      simp only [List.foldl_cons]
      have hopen : timerOpen s b.1 = true := by
        unfold timerOpen
        rw [hc]
        exact decide_eq_true (hall b (List.mem_cons_self b t))
      rw [debounced_drop cfg f s b.1 b.2 hopen, hopen]
      simp only [if_true]
      exact ih s (n + 0) c hc (fun b' hb' => hall b' (List.mem_cons_of_mem b hb'))

theorem debounceFold_spaced (cfg : Config) (f : SceneNode → Msg → Bool) :
    ∀ (batches : List (Nat × List Msg)) (s : ClientState) (n : Nat),
      batches.Chain' (fun a b => a.1 + cfg.debounceMs < b.1) →
      (∀ b0 ∈ batches.head?, timerOpen s (b0 : Nat × List Msg).1 = false) →
      (batches.foldl
        (fun acc b =>
          ((debouncedProcessMessage cfg f b.1 acc.1 b.2).1,
           acc.2 + (if timerOpen acc.1 b.1 then 0 else 1)))
        (s, n)).2 = n + batches.length := by
  intro batches
  induction batches with
  | nil => intro s n _ _; rfl
  | cons b t ih =>
      intro s n hch hhead
      have hopen : timerOpen s b.1 = false :=
        hhead b (by simp)
      simp only [List.foldl_cons]
      rw [hopen, debounced_accept cfg f s b.1 b.2 hopen]
      simp only [Bool.false_eq_true, if_false]
      rw [List.chain'_cons'] at hch
      have := ih ({ (processMessage cfg f b.1 s b.2).1 with
          debounceUntil := some (b.1 + cfg.debounceMs) }) (n + 1) hch.2 ?_
      · rw [this]
        simp [List.length_cons]
        omega
      · intro b0 hb0
        unfold timerOpen
        have hrel := hch.1 b0 hb0
        rw [show ({ (processMessage cfg f b.1 s b.2).1 with
          debounceUntil := some (b.1 + cfg.debounceMs) } :
            ClientState).debounceUntil = some (b.1 + cfg.debounceMs) from rfl]
        exact decide_eq_false (by omega)

/-- C5: with a debounce window W > 0, a batch arriving while no window is
open is forwarded immediately to batch processing and opens a window of
duration W; a batch arriving while the window is open is dropped whole
with no observable effect; hence k batches arriving within one window
yield exactly 1 applied batch and k batches pairwise spaced more than W
apart yield k applied batches. -/
theorem debounce_gate_behaviour (cfg : Config) (f : SceneNode → Msg → Bool)
    (hW : 0 < cfg.debounceMs) :
    (∀ (st : ClientState) (now : Nat) (msgs : List Msg),
      timerOpen st now = true →
      debouncedProcessMessage cfg f now st msgs = (st, [])) ∧
    (∀ (st : ClientState) (now : Nat) (msgs : List Msg),
      timerOpen st now = false →
      debouncedProcessMessage cfg f now st msgs =
        ({ (processMessage cfg f now st msgs).1 with
            debounceUntil := some (now + cfg.debounceMs) },
         (processMessage cfg f now st msgs).2)) ∧
    (∀ (st : ClientState) (t0 : Nat) (b0 : List Msg)
        (rest : List (Nat × List Msg)),
      st.debounceUntil = none →
      (∀ b ∈ rest, (b : Nat × List Msg).1 < t0 + cfg.debounceMs) →
      (debounceRun cfg f ((t0, b0) :: rest) st).2 = 1) ∧
    (∀ (st : ClientState) (batches : List (Nat × List Msg)),
      st.debounceUntil = none →
      batches.Chain' (fun a b => a.1 + cfg.debounceMs < b.1) →
      (debounceRun cfg f batches st).2 = batches.length) := by
  refine ⟨debounced_drop cfg f, debounced_accept cfg f, ?_, ?_⟩
  · intro st t0 b0 rest hnone hall
    have hopen : timerOpen st t0 = false := by
      unfold timerOpen
      rw [hnone]
    unfold debounceRun
    simp only [List.foldl_cons]
    rw [hopen, debounced_accept cfg f st t0 b0 hopen]
    simp only [Bool.false_eq_true, if_false]
    rw [debounceFold_dropped cfg f rest _ (0 + 1) (t0 + cfg.debounceMs) rfl hall]
  · intro st batches hnone hch
    unfold debounceRun
    rw [debounceFold_spaced cfg f batches st 0 hch ?_]
    · omega
    · intro b0 _
      unfold timerOpen
      rw [hnone]

/-- Witness for the C5 theorem at a concrete input. -/
theorem debounce_gate_behaviour_witness :
    0 < exCfgW.debounceMs ∧
    ((∀ (st : ClientState) (now : Nat) (msgs : List Msg),
      timerOpen st now = true →
      debouncedProcessMessage exCfgW alwaysUpdate now st msgs = (st, [])) ∧
    (∀ (st : ClientState) (now : Nat) (msgs : List Msg),
      timerOpen st now = false →
      debouncedProcessMessage exCfgW alwaysUpdate now st msgs =
        ({ (processMessage exCfgW alwaysUpdate now st msgs).1 with
            debounceUntil := some (now + exCfgW.debounceMs) },
         (processMessage exCfgW alwaysUpdate now st msgs).2)) ∧
    (∀ (st : ClientState) (t0 : Nat) (b0 : List Msg)
        (rest : List (Nat × List Msg)),
      st.debounceUntil = none →
      (∀ b ∈ rest, (b : Nat × List Msg).1 < t0 + exCfgW.debounceMs) →
      (debounceRun exCfgW alwaysUpdate ((t0, b0) :: rest) st).2 = 1) ∧
    (∀ (st : ClientState) (batches : List (Nat × List Msg)),
      st.debounceUntil = none →
      batches.Chain' (fun a b => a.1 + exCfgW.debounceMs < b.1) →
      (debounceRun exCfgW alwaysUpdate batches st).2 = batches.length)) :=
  ⟨by decide, debounce_gate_behaviour exCfgW alwaysUpdate (by decide)⟩

end MarkerArray
